import Mathlib

/-!
Shallow embedding of the action-synchronized coordination layer of the
hathor-wallet-mobile repository (`src/sagas/helpers.js`), together with
theorems settling the specification claims about it.

JavaScript values that flow through the helpers (redux actions, payload
maps, stored settings) are modelled by the inductive `Value`; `undefined`
(the absent sentinel) is modelled by `Option.none` at the use sites.
Redux-saga effects are modelled as follows: the stream of actions
dispatched after a routine starts waiting is a `List Value`; `take p`
consumes the first action of the stream satisfying `p`; `put a` appends
`a` to the routine's emitted-action output; `select` reads a state record
passed explicitly.
-/

set_option autoImplicit false

namespace SagaHelpers

/-- A JavaScript value as it appears in redux actions and payload maps:
null, booleans, numbers, strings and plain objects (association lists of
string keys to values). -/
inductive Value where
  | vnull
  | vbool (b : Bool)
  | vnum (n : Int)
  | vstr (s : String)
  | vobj (fields : List (String × Value))
  deriving Repr

mutual

/-- Structural equality test on `Value`, modelling JavaScript strict
equality (`===`) on primitive values.  (On two distinct object references
`===` is false even for structurally equal objects; the payload values
compared by the helpers are primitives, where `===` is structural.) -/
def Value.beq : Value → Value → Bool
  | .vnull, .vnull => true
  | .vbool a, .vbool b => a == b
  | .vnum a, .vnum b => a == b
  | .vstr a, .vstr b => a == b
  | .vobj fs, .vobj gs => Value.beqFields fs gs
  | _, _ => false

/-- Pointwise equality of object field lists. -/
def Value.beqFields : List (String × Value) → List (String × Value) → Bool
  | [], [] => true
  | (k, v) :: fs, (k2, v2) :: gs => k == k2 && Value.beq v v2 && Value.beqFields fs gs
  | _, _ => false

end

instance : BEq Value := ⟨Value.beq⟩

/-- JavaScript strict equality lifted to possibly-absent values:
`undefined === undefined` is `true`. -/
def optBeq : Option Value → Option Value → Bool
  | none, none => true
  | some a, some b => Value.beq a b
  | _, _ => false

/-- Property access `obj[key]` on an object: the first binding of `key`
(JavaScript objects bind each key once). `none` models `undefined`. -/
def lookupField : List (String × Value) → String → Option Value
  | [], _ => none
  | (k, v) :: fs, key => if k == key then some v else lookupField fs key

/-- Direct (single-key) property access on a value; non-objects have no
properties. -/
def Value.direct : Value → String → Option Value
  | .vobj fs, key => lookupField fs key
  | _, _ => none

/-- Walk a split path segment by segment; a missing segment yields the
absent sentinel `none` (lodash `get` on a missing path). -/
def getPath : Value → List String → Option Value
  | v, [] => some v
  | v, key :: rest =>
    match v.direct key with
    | some v2 => getPath v2 rest
    | none => none

/-- Split a lodash path string on dots (`"a.b"` into `["a", "b"]`). -/
def splitPathAux : List Char → List Char → List String
  | [], acc => [String.mk acc.reverse]
  | c :: cs, acc =>
    if c = '.' then String.mk acc.reverse :: splitPathAux cs []
    else splitPathAux cs (c :: acc)

/-- Split a path string on dots. -/
def splitPath (s : String) : List String := splitPathAux s.data []

/-- lodash `get(value, key)`: if `key` is a direct property of the value
the direct binding wins (lodash `isKey`); otherwise the key is split on
dots and walked as a deep path.  A key without dots behaves identically
under both branches. -/
def lget (v : Value) (key : String) : Option Value :=
  match v.direct key with
  | some r => some r
  | none => getPath v (splitPath key)

/-- The `_types` argument of `specificTypeAndPayload`: a single action
type string or a list of action type strings. -/
inductive ActionTypes where
  | single (t : String)
  | many (ts : List String)
  deriving Repr

/-- `Array.isArray` normalization from the source: a single type string
becomes a one-element list. -/
def normalizeTypes : ActionTypes → List String
  | .single t => [t]
  | .many ts => ts

/-- `action.type` — direct access of the `type` property. -/
def actionType (a : Value) : Option Value := a.direct "type"

/-- `actionTypes.indexOf(action.type) === -1` is false iff `action.type`
is a string appearing in the list (`indexOf` compares with `===`, so a
missing or non-string `type` never matches). -/
def typeMatches (actionTypes : List String) (a : Value) : Bool :=
  match actionType a with
  | some (.vstr t) => actionTypes.contains t
  | _ => false

/-- `Object.keys(payload)`. -/
def objKeys (payload : List (String × Value)) : List String := payload.map (·.1)

/-- `specificTypeAndPayload(_types, payload)` from `src/sagas/helpers.js`:
the predicate over actions that requires the action type to be among the
(normalized) types and, for every key of `payload`, the lodash `get` of
that key on the action to be strictly equal to its `get` on `payload`. -/
def specificTypeAndPayload (ts : ActionTypes) (payload : List (String × Value))
    (action : Value) : Bool :=
  let actionTypes := normalizeTypes ts
  if !typeMatches actionTypes action then false
  else (objKeys payload).all fun key => optBeq (lget action key) (lget (.vobj payload) key)

/-- `take` pattern predicate corresponding to passing a plain action-type
string to redux-saga's `take`. -/
def hasType (t : String) (a : Value) : Bool :=
  optBeq (actionType a) (some (.vstr t))

/-- The value returned by the `race` effect of `dispatchAndWait`: the
source races `{ success: take(successAction), falure: take(failureAction) }`
(the `falure` spelling is the source's). Exactly one variant is populated,
carrying the matched action. -/
inductive RaceResult where
  | success (a : Value)
  | falure (a : Value)
  deriving Repr

/-- Resolution of `race({success: take(ps), falure: take(pf)})` against the
stream of actions dispatched after the race starts: the first action
matching either pattern resolves the race — once, tagging the side — and
both listeners are torn down, so later actions are never consulted; a
stream with no matching action leaves the race suspended (`none`). -/
def raceTake (ps pf : Value → Bool) : List Value → Option RaceResult
  | [] => none
  | a :: rest =>
    if ps a then some (.success a)
    else if pf a then some (.falure a)
    else raceTake ps pf rest

/-- `dispatchAndWait(action, successAction, failureAction)` from
`src/sagas/helpers.js`: `put` the action, then race the two takes.  The
result pairs the actions emitted by the routine (just the dispatched
command) with the race outcome over the subsequent stream. -/
def dispatchAndWait (action : Value) (ps pf : Value → Bool) (stream : List Value) :
    List Value × Option RaceResult :=
  ([action], raceTake ps pf stream)

/-- A supervised routine as the error boundary sees it: from the
triggering action, the list of actions it `put` before finishing and,
when it faulted, the fault's message (`none` for normal completion). -/
def Routine : Type := Value → List Value × Option String

/-- `errorHandler(saga, failureAction)` from `src/sagas/helpers.js`: the
wrapper runs the routine; on a fault it logs and `put`s the compensating
`failureAction`; the fault is swallowed. The wrapper's own result has the
same shape as a routine's: emitted actions plus escaping fault. -/
def errorHandler (saga : Routine) (failureAction : Value) : Routine :=
  fun action =>
    match saga action with
    | (outs, none) => (outs, none)
    | (outs, some _) => (outs ++ [failureAction], none)

/-- One observable step of `showPinScreenForResult`: dispatching
`setIsShowingPinScreen`, invoking the navigation collaborator (with the
parameters of the call), or resolving the returned promise. -/
inductive PinOp where
  | setShowingPin (visible : Bool)
  | navigate (screen : String) (canCancel : Bool) (screenText : String)
      (biometryText : String)
  | resolvePin (pin : String)
  deriving DecidableEq, Repr

/-- The prompt text passed to the pin screen (the `t`-template literal). -/
def pinScreenText : String := "Enter your 6-digit pin to authorize operation"

/-- The biometry prompt text passed to the pin screen. -/
def pinBiometryText : String := "Authorize operation"

/-- `showPinScreenForResult(dispatch)` from `src/sagas/helpers.js`, as the
trace of observable operations of one complete session in which the modal
eventually invokes the completion callback once with `pin`: the promise
executor builds the params (whose callback dispatches
`setIsShowingPinScreen(false)` and then resolves with the pin), calls
`NavigationService.navigate('PinScreen', params)`, and then dispatches
`setIsShowingPinScreen(true)`. -/
def showPinScreenForResult (pin : String) : List PinOp :=
  let cb : String → List PinOp := fun p => [.setShowingPin false, .resolvePin p]
  [PinOp.navigate "PinScreen" false pinScreenText pinBiometryText,
   PinOp.setShowingPin true] ++ cb pin

/-- The redux state fields read by the feature-flag helpers. -/
structure FeatureState where
  featureTogglesInitialized : Bool
  featureToggles : String → Option Bool

/-- `take(pattern)` against the subsequent action stream: consume actions
until the first one matching the pattern and return the remainder of the
stream; `none` when no matching action ever arrives (the routine stays
suspended). -/
def takeFirst (p : Value → Bool) : List Value → Option (List Value)
  | [] => none
  | a :: rest => if p a then some rest else takeFirst p rest

/-- `waitForFeatureToggleInitialization` from `src/sagas/helpers.js`:
select `featureTogglesInitialized`; when false, `take` the
`FEATURE_TOGGLE_INITIALIZED` action.  Returns the stream left after the
wait (`none` = suspended forever). -/
def waitForFeatureToggleInitialization (st : FeatureState) (stream : List Value) :
    Option (List Value) :=
  if st.featureTogglesInitialized then some stream
  else takeFirst (hasType "FEATURE_TOGGLE_INITIALIZED") stream

/-- JavaScript `a || b` for a boolean-or-undefined left operand, as in
`FEATURE_TOGGLE_DEFAULTS[flag] || false`. -/
def jsOrBool (a : Option Bool) (b : Bool) : Bool :=
  match a with
  | some true => true
  | _ => b

/-- `checkForFeatureFlag(flag)` from `src/sagas/helpers.js`: wait for
toggle initialization, then select `featureToggles` and return
`get(featureToggles, flag, FEATURE_TOGGLE_DEFAULTS[flag] || false)`.
`FEATURE_TOGGLE_DEFAULTS` (from `constants.js`, not in `src/`) is passed
as the `defaults` map; flag names are plain keys, so lodash `get` is
direct lookup with a default.  `none` = suspended forever. -/
def checkForFeatureFlag (defaults : String → Option Bool) (st : FeatureState)
    (stream : List Value) (flag : String) : Option Bool :=
  (waitForFeatureToggleInitialization st stream).map fun _ =>
    (st.featureToggles flag).getD (jsOrBool (defaults flag) false)

/-- A registered-token record `{uid, symbol, name}`. -/
structure TokenData where
  uid : String
  symbol : String
  name : String
  deriving DecidableEq, Repr

/-- The manual drain loop of `getRegisteredTokens`: each record yielded by
the registry iterator is kept (projected to `{uid, symbol, name}`) unless
`excludeHTR` is set and its uid is the HTR uid. -/
def drainTokens (excludeHTR : Bool) (htrUid : String) : List TokenData → List TokenData
  | [] => []
  | t :: rest =>
    if !excludeHTR || t.uid != htrUid then
      { uid := t.uid, symbol := t.symbol, name := t.name } :: drainTokens excludeHTR htrUid rest
    else drainTokens excludeHTR htrUid rest

/-- `getRegisteredTokens(wallet, excludeHTR)` from `src/sagas/helpers.js`:
drain the wallet storage's registered-token iterator (modelled as the
list `registry`), filtering out the HTR uid when `excludeHTR`; when not
excluding, unshift `INITIAL_TOKENS` (from `constants.js`, not in `src/`;
passed as `initialTokens`) in front.  `htrUid` is
`hathorLib.constants.HATHOR_TOKEN_CONFIG.uid` from the external wallet
library. -/
def getRegisteredTokens (htrUid : String) (initialTokens : List TokenData)
    (registry : List TokenData) (excludeHTR : Bool) : List TokenData :=
  let tokens := drainTokens excludeHTR htrUid registry
  if !excludeHTR then initialTokens ++ tokens else tokens

/-- Custom network settings as read by `isWalletServiceUnavailable`:
`walletServiceUrl` is a URL string, or `none` for JavaScript
`null`/`undefined`. -/
structure CustomNetworkSettings where
  walletServiceUrl : Option String
  deriving DecidableEq, Repr

/-- Modelled from the spec: `WALLET_SERVICE_FEATURE_TOGGLE` from
`constants.js` (not in `src/`) — the name of the wallet-service feature
toggle (spec §4.7 and §8 scenario). -/
def WALLET_SERVICE_FEATURE_TOGGLE : String := "walletService"

/-- Modelled from the spec: `PUSH_NOTIFICATION_FEATURE_TOGGLE` from
`constants.js` (not in `src/`) — the name of the push-notification
feature toggle (spec §4.7 and §8 scenario), distinct from the
wallet-service toggle. -/
def PUSH_NOTIFICATION_FEATURE_TOGGLE : String := "pushNotification"

/-- `isWalletServiceUnavailable(customNetworkSettings)` from
`src/sagas/helpers.js`: `customNetworkSettings.walletServiceUrl == null`
(loose equality: true exactly on `null`/`undefined`). -/
def isWalletServiceUnavailable (s : CustomNetworkSettings) : Bool :=
  s.walletServiceUrl.isNone

/-- A feature-toggle set `{flagName: bool, ...}` as a finite-support map;
`none` models a flag absent from the object. -/
def FeatureToggleSet : Type := String → Option Bool

/-- Object spread override `{...m, [k]: b}`: binds `k` to `b`, leaving
every other key's binding unchanged. -/
def setToggle (m : FeatureToggleSet) (k : String) (b : Bool) : FeatureToggleSet :=
  fun x => if x = k then some b else m x

/-- `disableFeaturesIfNeeded(customNetworkSettings, currentFeatureToggles)`
from `src/sagas/helpers.js`: copy the current toggles; when the wallet
service is unavailable, override the wallet-service and push-notification
toggles to false; return a copy. (Object spread copy is the identity in
this functional model.) -/
def disableFeaturesIfNeeded (s : CustomNetworkSettings) (cur : FeatureToggleSet) :
    FeatureToggleSet :=
  if isWalletServiceUnavailable s then
    setToggle (setToggle cur WALLET_SERVICE_FEATURE_TOGGLE false)
      PUSH_NOTIFICATION_FEATURE_TOGGLE false
  else cur

/-- Modelled from the spec: `networkSettingsKeyMap.networkSettings` from
`constants.js` (not in `src/`) — the fixed persisted-storage key for
network settings (spec §6: storage is keyed by a fixed settings key). -/
def networkSettingsKey : String := "networkSettings"

/-- The redux state field read by `getNetworkSettings`. -/
structure NetworkState where
  networkSettings : Value

/-- JavaScript nullish coalescing `a ?? b`: `b` only when `a` is
`null`/`undefined`; any present value — falsy included — wins. -/
def nullishCoalesce (a : Option Value) (b : Value) : Value :=
  match a with
  | some v => v
  | none => b

/-- `getNetworkSettings(state)` from `src/sagas/helpers.js`:
`STORE.getItem(networkSettingsKeyMap.networkSettings) ?? state.networkSettings`.
The persistent storage collaborator `STORE` is modelled as a lookup
function from keys to possibly-absent values. -/
def getNetworkSettings (store : String → Option Value) (state : NetworkState) : Value :=
  nullishCoalesce (store networkSettingsKey) state.networkSettings

/-- Build the plain action `{type: t}`. -/
def mkAction (t : String) : Value := .vobj [("type", .vstr t)]

theorem typeMatches_iff (l : List String) (a : Value) :
    typeMatches l a = true ↔ ∃ t, actionType a = some (.vstr t) ∧ t ∈ l := by
  unfold typeMatches
  cases h : actionType a with
  | none => simp
  | some v => cases v <;> simp

/-- C1: a predicate built by `specificTypeAndPayload` with kinds `ts` and
field map `payload` accepts an action iff the action's kind is among the
normalized kinds and every key of the field map — dotted paths included —
resolves on the action (missing path = the absent sentinel `none`) to a
value strictly equal to its resolution on the field map; moreover two
actions agreeing on the kind check and on the resolution of every key of
the field map are treated identically, so no other action field affects
the result.  The predicate is a pure function (side effects are
unrepresentable in this embedding). -/
theorem specificTypeAndPayload_spec (ts : ActionTypes) (payload : List (String × Value))
    (a : Value) :
    (specificTypeAndPayload ts payload a = true ↔
      ((∃ t, actionType a = some (.vstr t) ∧ t ∈ normalizeTypes ts) ∧
       ∀ key ∈ objKeys payload, optBeq (lget a key) (lget (.vobj payload) key) = true))
    ∧ (∀ a2 : Value,
        typeMatches (normalizeTypes ts) a2 = typeMatches (normalizeTypes ts) a →
        (∀ key ∈ objKeys payload, lget a2 key = lget a key) →
        specificTypeAndPayload ts payload a2 = specificTypeAndPayload ts payload a) := by
  have main : ∀ b : Value, specificTypeAndPayload ts payload b = true ↔
      ((∃ t, actionType b = some (.vstr t) ∧ t ∈ normalizeTypes ts) ∧
       ∀ key ∈ objKeys payload, optBeq (lget b key) (lget (.vobj payload) key) = true) := by
    intro b
    by_cases h : typeMatches (normalizeTypes ts) b = true
    · simp [specificTypeAndPayload, h, ← typeMatches_iff]
    · have h2 : typeMatches (normalizeTypes ts) b = false := by
        simpa using h
      simp [specificTypeAndPayload, h2, ← typeMatches_iff]
  refine ⟨main a, fun a2 hty hkeys => ?_⟩
  rw [Bool.eq_iff_iff, main a2, main a, ← typeMatches_iff, ← typeMatches_iff, hty]
  constructor
  · rintro ⟨h1, h2⟩
    exact ⟨h1, fun key hk => by rw [← hkeys key hk]; exact h2 key hk⟩
  · rintro ⟨h1, h2⟩
    exact ⟨h1, fun key hk => by rw [hkeys key hk]; exact h2 key hk⟩

/-- C1 witness: the concrete predicate for type `"T"` and field map
`{"payload.x": 1}` treats two actions that agree on the kind check and on
the `payload.x` resolution identically, although they differ on an
unrelated payload field. -/
theorem specificTypeAndPayload_spec_witness :
    typeMatches (normalizeTypes (.single "T"))
        (.vobj [("type", .vstr "T"),
                ("payload", .vobj [("x", .vnum 1), ("y", .vnum 9)])]) =
      typeMatches (normalizeTypes (.single "T"))
        (.vobj [("type", .vstr "T"), ("payload", .vobj [("x", .vnum 1)])])
    ∧ specificTypeAndPayload (.single "T") [("payload.x", .vnum 1)]
        (.vobj [("type", .vstr "T"),
                ("payload", .vobj [("x", .vnum 1), ("y", .vnum 9)])]) =
      specificTypeAndPayload (.single "T") [("payload.x", .vnum 1)]
        (.vobj [("type", .vstr "T"), ("payload", .vobj [("x", .vnum 1)])]) :=
  ⟨by decide,
   (specificTypeAndPayload_spec (.single "T") [("payload.x", .vnum 1)]
      (.vobj [("type", .vstr "T"), ("payload", .vobj [("x", .vnum 1)])])).2
    (.vobj [("type", .vstr "T"), ("payload", .vobj [("x", .vnum 1), ("y", .vnum 9)])])
    (by decide)
    (by intro k hk; simp [objKeys] at hk; subst hk; rfl)⟩

theorem raceTake_append (ps pf : Value → Bool) (xs ys : List Value) :
    raceTake ps pf (xs ++ ys) =
      match raceTake ps pf xs with
      | some r => some r
      | none => raceTake ps pf ys := by
  induction xs with
  | nil => simp [raceTake]
  | cons a rest ih =>
    by_cases hs : ps a
    · simp [raceTake, hs]
    · by_cases hf : pf a <;> simp [raceTake, hs, hf, ih]

/-- C2: `dispatchAndWait` emits exactly the command action, and the race
over any subsequent stream resolves at the first action matching either
pattern: the result is a single `RaceResult` tagging which side matched
together with the matched action, and every action after the first match
— including the other designated outcome arriving in the same tick — is
ignored, so the caller is resumed exactly once and the losing take is
dead once the race resolves. -/
theorem dispatchAndWait_spec (a : Value) (ps pf : Value → Bool) (pre : List Value)
    (e : Value) (post : List Value)
    (hpre : raceTake ps pf pre = none) (he : (ps e || pf e) = true) :
    (dispatchAndWait a ps pf (pre ++ e :: post)).1 = [a]
    ∧ (dispatchAndWait a ps pf (pre ++ e :: post)).2 =
        some (if ps e then RaceResult.success e else RaceResult.falure e)
    ∧ ∀ post2 : List Value,
        dispatchAndWait a ps pf (pre ++ e :: post2) =
          dispatchAndWait a ps pf (pre ++ e :: post) := by
  have resolve : ∀ tail : List Value,
      raceTake ps pf (pre ++ e :: tail) =
        some (if ps e then RaceResult.success e else RaceResult.falure e) := by
    intro tail
    rw [raceTake_append, hpre]
    by_cases hs : ps e
    · simp [raceTake, hs]
    · have hf : pf e = true := by
        rcases Bool.or_eq_true_iff.mp he with h | h
        · exact absurd h hs
        · exact h
      simp [raceTake, hs, hf]
  refine ⟨rfl, resolve post, fun post2 => ?_⟩
  unfold dispatchAndWait
  rw [resolve post, resolve post2]

/-- C2 witness: the spec's scenario — command `SEND_TX` raced against
`SEND_TX_SUCCESS`/`SEND_TX_FAILED`; a `SEND_TX_FAILED` arriving first
resolves the race as the failure side even though `SEND_TX_SUCCESS` is
emitted right after it in the same tick. -/
theorem dispatchAndWait_spec_witness :
    raceTake (hasType "SEND_TX_SUCCESS") (hasType "SEND_TX_FAILED") [] = none
    ∧ (hasType "SEND_TX_SUCCESS" (mkAction "SEND_TX_FAILED")
        || hasType "SEND_TX_FAILED" (mkAction "SEND_TX_FAILED")) = true
    ∧ (dispatchAndWait (mkAction "SEND_TX") (hasType "SEND_TX_SUCCESS")
        (hasType "SEND_TX_FAILED")
        [mkAction "SEND_TX_FAILED", mkAction "SEND_TX_SUCCESS"]).2 =
      some (if hasType "SEND_TX_SUCCESS" (mkAction "SEND_TX_FAILED")
            then RaceResult.success (mkAction "SEND_TX_FAILED")
            else RaceResult.falure (mkAction "SEND_TX_FAILED")) :=
  ⟨rfl, by decide,
   (dispatchAndWait_spec (mkAction "SEND_TX") (hasType "SEND_TX_SUCCESS")
      (hasType "SEND_TX_FAILED") [] (mkAction "SEND_TX_FAILED")
      [mkAction "SEND_TX_SUCCESS"] rfl (by decide)).2.1⟩

/-- C3: `getNetworkSettings` returns the persisted settings value
whenever the store holds one under the fixed settings key — whatever that
value is, a falsy-but-present empty object included — and falls back to
the in-memory state's `networkSettings` exactly when the persisted value
is `null`/absent. -/
theorem getNetworkSettings_spec (store : String → Option Value) (state : NetworkState) :
    (∀ v : Value, store networkSettingsKey = some v →
        getNetworkSettings store state = v)
    ∧ (store networkSettingsKey = none →
        getNetworkSettings store state = state.networkSettings) := by
  constructor
  · intro v hv
    simp [getNetworkSettings, nullishCoalesce, hv]
  · intro hn
    simp [getNetworkSettings, nullishCoalesce, hn]

/-- C3 witness: a persisted empty object `{}` wins over the in-memory
settings, and with nothing persisted the in-memory settings are
returned. -/
theorem getNetworkSettings_spec_witness :
    (fun k => if k = networkSettingsKey then some (Value.vobj []) else none)
        networkSettingsKey = some (Value.vobj [])
    ∧ getNetworkSettings
        (fun k => if k = networkSettingsKey then some (Value.vobj []) else none)
        ⟨.vstr "inMemory"⟩ = Value.vobj []
    ∧ getNetworkSettings (fun _ => none) ⟨.vstr "inMemory"⟩ = Value.vstr "inMemory" :=
  ⟨rfl,
   (getNetworkSettings_spec
      (fun k => if k = networkSettingsKey then some (Value.vobj []) else none)
      ⟨.vstr "inMemory"⟩).1 (Value.vobj []) rfl,
   (getNetworkSettings_spec (fun _ => none) ⟨.vstr "inMemory"⟩).2 rfl⟩

/-- C4: the wrapper built by `errorHandler` never lets a fault escape
(its fault component is always `none`); on a faulting invocation its
emitted actions are exactly the routine's followed by one copy of the
compensating failure action, and on a normal completion they are exactly
the routine's, with no compensating action added. -/
theorem errorHandler_spec (saga : Routine) (failureAction action : Value) :
    (errorHandler saga failureAction action).2 = none
    ∧ (∀ (outs : List Value) (msg : String), saga action = (outs, some msg) →
        (errorHandler saga failureAction action).1 = outs ++ [failureAction])
    ∧ (∀ outs : List Value, saga action = (outs, none) →
        (errorHandler saga failureAction action).1 = outs) := by
  refine ⟨?_, ?_, ?_⟩
  · unfold errorHandler
    cases h : saga action with
    | mk outs fault => cases fault <;> simp
  · intro outs msg h
    simp [errorHandler, h]
  · intro outs h
    simp [errorHandler, h]

/-- C4 witness: a routine that emits one action and then faults is
wrapped into a routine that emits that action followed by exactly one
compensating failure action and lets no fault escape. -/
theorem errorHandler_spec_witness :
    (fun _ : Value => ([mkAction "STEP"], some "boom")) (mkAction "GO") =
        ([mkAction "STEP"], some "boom")
    ∧ (errorHandler (fun _ => ([mkAction "STEP"], some "boom"))
        (mkAction "FAIL") (mkAction "GO")).2 = none
    ∧ (errorHandler (fun _ => ([mkAction "STEP"], some "boom"))
        (mkAction "FAIL") (mkAction "GO")).1 = [mkAction "STEP"] ++ [mkAction "FAIL"] :=
  ⟨rfl,
   (errorHandler_spec (fun _ => ([mkAction "STEP"], some "boom"))
      (mkAction "FAIL") (mkAction "GO")).1,
   (errorHandler_spec (fun _ => ([mkAction "STEP"], some "boom"))
      (mkAction "FAIL") (mkAction "GO")).2.1 [mkAction "STEP"] "boom" rfl⟩

/-- Recognizes the dispatch that sets the modal-visible flag to true. -/
def isSetShowingTrue : PinOp → Bool
  | .setShowingPin true => true
  | _ => false

/-- Recognizes the dispatch that sets the modal-visible flag to false. -/
def isSetShowingFalse : PinOp → Bool
  | .setShowingPin false => true
  | _ => false

/-- Recognizes the invocation of the navigation (modal presentation)
collaborator. -/
def isNavigateOp : PinOp → Bool
  | .navigate _ _ _ _ => true
  | _ => false

/-- Recognizes the resolution of the returned promise. -/
def isResolveOp : PinOp → Bool
  | .resolvePin _ => true
  | _ => false

/-- C5 counterexample: on the session entering pin `"123456"`, the
modal-visible flag is NOT set to true strictly before the modal
presentation collaborator is invoked — the source calls
`NavigationService.navigate` first and dispatches
`setIsShowingPinScreen(true)` only afterwards. -/
theorem showPinScreenForResult_counterexample :
    ¬ ((showPinScreenForResult "123456").findIdx isSetShowingTrue <
       (showPinScreenForResult "123456").findIdx isNavigateOp) := by decide

/-- C5 (amended): on every invocation of the pin-screen bridge the shared
modal-visible flag is set to true immediately AFTER the modal
presentation collaborator is invoked (still during the synchronous
setup, before the completion callback can run), and the flag is set back
to false exactly once, inside the completion callback, before the
returned awaitable resolves with the entered secret. -/
theorem showPinScreenForResult_amended (pin : String) :
    (showPinScreenForResult pin).findIdx isNavigateOp <
        (showPinScreenForResult pin).findIdx isSetShowingTrue
    ∧ (showPinScreenForResult pin).findIdx isSetShowingTrue <
        (showPinScreenForResult pin).findIdx isSetShowingFalse
    ∧ ((showPinScreenForResult pin).filter isSetShowingFalse).length = 1
    ∧ (showPinScreenForResult pin).findIdx isSetShowingFalse <
        (showPinScreenForResult pin).findIdx isResolveOp
    ∧ ((showPinScreenForResult pin).filter isResolveOp).length = 1
    ∧ (showPinScreenForResult pin).get? ((showPinScreenForResult pin).findIdx isResolveOp) =
        some (.resolvePin pin) := by
  refine ⟨?_, ?_, ?_, ?_, ?_, ?_⟩ <;>
    simp [showPinScreenForResult, List.findIdx, List.findIdx.go, List.filter,
      isNavigateOp, isSetShowingTrue, isSetShowingFalse, isResolveOp]

/-- C10: on every invocation the pin-screen bridge performs exactly one
navigation call, and that call hard-codes `canCancel` to false and fixed
prompt texts — the entered pin (the bridge's only input) cannot influence
the presentation parameters, and the source function takes no prompt or
allow-cancel parameters at all. -/
theorem showPinScreenForResult_params (pin : String) :
    (showPinScreenForResult pin).filter isNavigateOp =
      [PinOp.navigate "PinScreen" false pinScreenText pinBiometryText] := rfl

/-- C6: `disableFeaturesIfNeeded` is idempotent — applying it a second
time with the same settings changes nothing — and when the settings have
no wallet-service URL it forces the wallet-service and push-notification
toggles to false while every other toggle entry passes through
unchanged. -/
theorem disableFeaturesIfNeeded_spec (s : CustomNetworkSettings) (t : FeatureToggleSet) :
    disableFeaturesIfNeeded s (disableFeaturesIfNeeded s t) = disableFeaturesIfNeeded s t
    ∧ (isWalletServiceUnavailable s = true →
        disableFeaturesIfNeeded s t WALLET_SERVICE_FEATURE_TOGGLE = some false
        ∧ disableFeaturesIfNeeded s t PUSH_NOTIFICATION_FEATURE_TOGGLE = some false
        ∧ ∀ k : String, k ≠ WALLET_SERVICE_FEATURE_TOGGLE →
            k ≠ PUSH_NOTIFICATION_FEATURE_TOGGLE →
            disableFeaturesIfNeeded s t k = t k) := by
  by_cases h : isWalletServiceUnavailable s
  · constructor
    · funext k
      by_cases hp : k = PUSH_NOTIFICATION_FEATURE_TOGGLE <;>
        by_cases hw : k = WALLET_SERVICE_FEATURE_TOGGLE <;>
        simp [disableFeaturesIfNeeded, setToggle, h, hp, hw]
    · intro _
      refine ⟨?_, ?_, fun k hw hp => ?_⟩
      · simp [disableFeaturesIfNeeded, setToggle, h, WALLET_SERVICE_FEATURE_TOGGLE,
          PUSH_NOTIFICATION_FEATURE_TOGGLE]
      · simp [disableFeaturesIfNeeded, setToggle, h]
      · simp [disableFeaturesIfNeeded, setToggle, h, hw, hp]
  · have h2 : isWalletServiceUnavailable s = false := by simpa using h
    simp [disableFeaturesIfNeeded, h2]

/-- C6 witness: with settings lacking a wallet-service URL, the
wallet-service and push-notification toggles come out false while an
unrelated toggle keeps its value. -/
theorem disableFeaturesIfNeeded_spec_witness :
    isWalletServiceUnavailable ⟨none⟩ = true
    ∧ disableFeaturesIfNeeded ⟨none⟩
        (fun k => if k = "other" then some true else none)
        WALLET_SERVICE_FEATURE_TOGGLE = some false
    ∧ disableFeaturesIfNeeded ⟨none⟩
        (fun k => if k = "other" then some true else none)
        PUSH_NOTIFICATION_FEATURE_TOGGLE = some false
    ∧ disableFeaturesIfNeeded ⟨none⟩
        (fun k => if k = "other" then some true else none) "other" =
      (fun k : String => if k = "other" then some true else none) "other" := by
  have h := (disableFeaturesIfNeeded_spec ⟨none⟩
    (fun k => if k = "other" then some true else none)).2 rfl
  exact ⟨rfl, h.1, h.2.1, h.2.2 "other" (by decide) (by decide)⟩

/-- C7: with `excludeHTR = false`, `getRegisteredTokens` returns exactly
the static initial tokens in their declared order followed by the
drained registry records in their original order — nothing filtered,
nothing deduplicated. -/
theorem getRegisteredTokens_defaultsFirst (htrUid : String)
    (initialTokens registry : List TokenData) :
    getRegisteredTokens htrUid initialTokens registry false = initialTokens ++ registry := by
  have hdrain : drainTokens false htrUid registry = registry := by
    induction registry with
    | nil => rfl
    | cons t rest ih => simp [drainTokens, ih]
  simp [getRegisteredTokens, hdrain]

/-- C8: with `excludeHTR = true`, no record returned by
`getRegisteredTokens` carries the native (HTR) token's uid, whatever the
registry contains. -/
theorem getRegisteredTokens_excludeNative (htrUid : String)
    (initialTokens registry : List TokenData) :
    ∀ t ∈ getRegisteredTokens htrUid initialTokens registry true, t.uid ≠ htrUid := by
  intro t ht
  simp only [getRegisteredTokens, Bool.not_true, if_neg] at ht
  induction registry with
  | nil => simp [drainTokens] at ht
  | cons r rest ih =>
    by_cases h : r.uid = htrUid
    · rw [show drainTokens true htrUid (r :: rest) = drainTokens true htrUid rest from by
        simp [drainTokens, h]] at ht
      exact ih ht
    · rw [show drainTokens true htrUid (r :: rest) =
          { uid := r.uid, symbol := r.symbol, name := r.name } ::
            drainTokens true htrUid rest from by simp [drainTokens, h]] at ht
      rcases List.mem_cons.mp ht with heq | hmem
      · subst heq; exact h
      · exact ih hmem

/-- C8 witness: the spec's scenario — a registry holding the native
token and `tokA`, drained with `excludeNative = true`, yields a list in
which `tokA` appears and whose members never carry the native uid. -/
theorem getRegisteredTokens_excludeNative_witness :
    ({ uid := "tokA", symbol := "A", name := "TokenA" } : TokenData) ∈
      getRegisteredTokens "native" []
        [{ uid := "native", symbol := "HTR", name := "Hathor" },
         { uid := "tokA", symbol := "A", name := "TokenA" }] true
    ∧ ({ uid := "tokA", symbol := "A", name := "TokenA" } : TokenData).uid ≠ "native" :=
  ⟨by decide,
   getRegisteredTokens_excludeNative "native" []
    [{ uid := "native", symbol := "HTR", name := "Hathor" },
     { uid := "tokA", symbol := "A", name := "TokenA" }]
    { uid := "tokA", symbol := "A", name := "TokenA" } (by decide)⟩

theorem takeFirst_isSome (p : Value → Bool) (l : List Value) :
    (takeFirst p l).isSome = l.any p := by
  induction l with
  | nil => rfl
  | cons a rest ih =>
    by_cases h : p a <;> simp [takeFirst, h, ih]

/-- C9: `checkForFeatureFlag` — when the readiness flag is already true
the wait consumes nothing of the subsequent stream; when it is false the
wait completes exactly when a `FEATURE_TOGGLE_INITIALIZED` action is
observed; and whenever the wait completes, the returned value is the
toggle set's value for the flag if present, else the static default for
the flag, else false. -/
theorem checkForFeatureFlag_spec (defaults : String → Option Bool) (st : FeatureState)
    (stream : List Value) (flag : String) :
    (st.featureTogglesInitialized = true →
        waitForFeatureToggleInitialization st stream = some stream)
    ∧ (st.featureTogglesInitialized = false →
        ((waitForFeatureToggleInitialization st stream).isSome ↔
          ∃ a ∈ stream, hasType "FEATURE_TOGGLE_INITIALIZED" a = true))
    ∧ (∀ rest : List Value, waitForFeatureToggleInitialization st stream = some rest →
        checkForFeatureFlag defaults st stream flag =
          some (match st.featureToggles flag, defaults flag with
                | some v, _ => v
                | none, some d => d
                | none, none => false)) := by
  refine ⟨fun h => by simp [waitForFeatureToggleInitialization, h], fun h => ?_, ?_⟩
  · rw [waitForFeatureToggleInitialization, if_neg (by simp [h]), takeFirst_isSome]
    simp
  · intro rest hrest
    rw [checkForFeatureFlag, hrest]
    simp only [Option.map_some']
    congr 1
    cases hv : st.featureToggles flag with
    | some v => simp
    | none =>
      cases hd : defaults flag with
      | none => simp [jsOrBool]
      | some d => cases d <;> simp [jsOrBool]

/-- C9 witness: with readiness still false, a stream carrying the
`FEATURE_TOGGLE_INITIALIZED` action completes the wait, and the flag
`"f"` present in the toggle set comes back with its stored value. -/
theorem checkForFeatureFlag_spec_witness :
    (⟨false, fun k => if k = "f" then some true else none⟩ :
        FeatureState).featureTogglesInitialized = false
    ∧ waitForFeatureToggleInitialization
        ⟨false, fun k => if k = "f" then some true else none⟩
        [mkAction "FEATURE_TOGGLE_INITIALIZED"] = some []
    ∧ checkForFeatureFlag (fun _ => none)
        ⟨false, fun k => if k = "f" then some true else none⟩
        [mkAction "FEATURE_TOGGLE_INITIALIZED"] "f" = some true :=
  ⟨rfl, rfl,
   (checkForFeatureFlag_spec (fun _ => none)
      ⟨false, fun k => if k = "f" then some true else none⟩
      [mkAction "FEATURE_TOGGLE_INITIALIZED"] "f").2.2 [] rfl⟩

end SagaHelpers
